import Mathlib

/-!
# Execution Control Layer — reference runtime, verified embedding

A shallow embedding of the ECL reference runtime (a fail-closed policy
enforcement gate for tool invocations) and proofs of the specification's
claims about it.

Embedded from the repository sources:
* `app/hashing.py`   — canonical JSON bytes, SHA-256 digests (`canonical_json_bytes`,
  `sha256_prefixed`, `hash_json`).
* `app/models.py`    — request / profile / decision data model and the strict
  (pydantic, `extra="forbid"`) request validator.
* `app/enforce.py`   — `find_tool_permit`, `require_controls`, `enforce_constraints`.
* `app/gate.py`      — the `/v1/execute` orchestrator (`execute`).

Modelling conventions:
* JSON values are the inductive `JVal`.  JSON numbers are modelled by the
  integral case (`Int`); float-valued requests and `min`/`max` float bounds
  are restricted to integers (IEEE-754 formatting is out of scope here, and
  no claim below depends on non-integral numbers).  Python booleans are a
  distinct constructor, but Python's `isinstance(v, (int, float))` is
  modelled faithfully: it accepts booleans, because `bool` is a subclass of
  `int` in Python.
* Python byte strings are `List Nat` (each element < 256).
* Python's `None` and JSON `null` both map to `JVal.null` (the gate treats a
  missing constrained argument and an explicit `null` alike, so the
  conflation is faithful to `enforce.py`).
* Regex patterns are modelled by Mathlib's `RegularExpression Char` (the
  regular fragment of Python `re`); `re.match` — an *unanchored* match at
  position 0 — is `reMatch` below.
* `raw : List Nat` is the request body; `obj? : Option JVal` stands for the
  result of `json.loads` on it (`none` = the `json.loads` call raised).
-/

namespace ECL

/-- JSON values as produced by `json.loads` (numbers restricted to the
integral case, see the header). -/
inductive JVal where
  | null : JVal
  | bool : Bool → JVal
  | int : Int → JVal
  | str : String → JVal
  | arr : List JVal → JVal
  | obj : List (String × JVal) → JVal

/-! ## Canonical JSON serialization (`hashing.py`, `canonical_json_bytes`)

`json.dumps(obj, sort_keys=True, separators=(",", ":"), ensure_ascii=False)`
encoded as UTF-8: keys sorted at every object level, no whitespace, and with
`ensure_ascii=False` only `"`, `\`, and control characters below U+0020 are
escaped (the latter with `\b \t \n \f \r` or lowercase `\uXXXX`). -/

/-- Lowercase hex digit. -/
def hexDigit (n : Nat) : Char :=
  if n < 10 then Char.ofNat (48 + n) else Char.ofNat (87 + n)

/-- Four lowercase hex digits (for `\uXXXX` escapes). -/
def hex4 (n : Nat) : String :=
  String.mk [hexDigit ((n >>> 12) % 16), hexDigit ((n >>> 8) % 16),
             hexDigit ((n >>> 4) % 16), hexDigit (n % 16)]

/-- One character of a JSON string literal, as `json.dumps(..., ensure_ascii=False)`
escapes it. -/
def escChar (c : Char) : String :=
  if c = '"' then "\\\"" else
  if c = '\\' then "\\\\" else
  if c = '\n' then "\\n" else
  if c = '\t' then "\\t" else
  if c = '\r' then "\\r" else
  if c.toNat = 8 then "\\b" else
  if c.toNat = 12 then "\\f" else
  if c.toNat < 32 then "\\u" ++ hex4 c.toNat else
  String.singleton c

/-- A JSON string literal. -/
def quoteStr (s : String) : String :=
  "\"" ++ String.join (s.data.map escChar) ++ "\""

/-- `",".join` -/
def joinComma : List String → String
  | [] => ""
  | [s] => s
  | s :: rest => s ++ "," ++ joinComma rest

/-- The key order `sorted(d.items())` uses: code-point lexicographic on the
key (dict keys are unique, so the value never takes part in the comparison). -/
def kvLE (a b : String × String) : Prop := a.1.data ≤ b.1.data

instance : DecidableRel kvLE := fun a b =>
  inferInstanceAs (Decidable (a.1.data ≤ b.1.data))

instance : IsTotal (String × String) kvLE := ⟨fun a b => le_total a.1.data b.1.data⟩

instance : IsTrans (String × String) kvLE := ⟨fun _ _ _ h1 h2 => le_trans h1 h2⟩

/-- Sort the (already serialized) object entries by key, as `sort_keys=True`
does. -/
def sortKV (l : List (String × String)) : List (String × String) :=
  List.insertionSort kvLE l

mutual

/-- The canonical JSON text of a value — `json.dumps(obj, sort_keys=True,
separators=(",", ":"), ensure_ascii=False)`. -/
def canonicalStr : JVal → String
  | .null => "null"
  | .bool b => cond b "true" "false"
  | .int n => toString n
  | .str s => quoteStr s
  | .arr xs => "[" ++ joinComma (canonicalList xs) ++ "]"
  | .obj kvs =>
      "\x7b" ++
        joinComma ((sortKV (canonicalKVs kvs)).map fun kv => quoteStr kv.1 ++ ":" ++ kv.2) ++
      "\x7d"

/-- Canonical texts of the elements of an array. -/
def canonicalList : List JVal → List String
  | [] => []
  | x :: xs => canonicalStr x :: canonicalList xs

/-- Object entries with the value replaced by its canonical text. -/
def canonicalKVs : List (String × JVal) → List (String × String)
  | [] => []
  | kv :: kvs => (kv.1, canonicalStr kv.2) :: canonicalKVs kvs

end

/-! ## UTF-8 and SHA-256 (`hashing.py`) -/

/-- UTF-8 encoding of one code point. -/
def utf8Char (c : Char) : List Nat :=
  let n := c.toNat
  if n < 0x80 then [n]
  else if n < 0x800 then [0xc0 + n / 64, 0x80 + n % 64]
  else if n < 0x10000 then [0xe0 + n / 4096, 0x80 + (n / 64) % 64, 0x80 + n % 64]
  else [0xf0 + n / 262144, 0x80 + (n / 4096) % 64, 0x80 + (n / 64) % 64, 0x80 + n % 64]

/-- UTF-8 encoding of a string (`str.encode("utf-8")`). -/
def utf8Bytes (s : String) : List Nat :=
  s.data.flatMap utf8Char

/-- `canonical_json_bytes(obj)` — the UTF-8 bytes of the canonical JSON text. -/
def canonical_json_bytes (obj : JVal) : List Nat :=
  utf8Bytes (canonicalStr obj)

/-- 32-bit rotate right (words are `Nat`s below `2 ^ 32`). -/
def rotr (n x : Nat) : Nat := ((x >>> n) ||| (x <<< (32 - n))) % 4294967296

def smallSigma0 (x : Nat) : Nat := rotr 7 x ^^^ rotr 18 x ^^^ (x >>> 3)

def smallSigma1 (x : Nat) : Nat := rotr 17 x ^^^ rotr 19 x ^^^ (x >>> 10)

def bigSigma0 (x : Nat) : Nat := rotr 2 x ^^^ rotr 13 x ^^^ rotr 22 x

def bigSigma1 (x : Nat) : Nat := rotr 6 x ^^^ rotr 11 x ^^^ rotr 25 x

/-- The SHA-256 round constants (FIPS 180-4, written in decimal). -/
def sha256K : List Nat :=
  [1116352408, 1899447441, 3049323471, 3921009573, 961987163, 1508970993,
   2453635748, 2870763221, 3624381080, 310598401, 607225278, 1426881987,
   1925078388, 2162078206, 2614888103, 3248222580, 3835390401, 4022224774,
   264347078, 604807628, 770255983, 1249150122, 1555081692, 1996064986,
   2554220882, 2821834349, 2952996808, 3210313671, 3336571891, 3584528711,
   113926993, 338241895, 666307205, 773529912, 1294757372, 1396182291,
   1695183700, 1986661051, 2177026350, 2456956037, 2730485921, 2820302411,
   3259730800, 3345764771, 3516065817, 3600352804, 4094571909, 275423344,
   430227734, 506948616, 659060556, 883997877, 958139571, 1322822218,
   1537002063, 1747873779, 1955562222, 2024104815, 2227730452, 2361852424,
   2428436474, 2756734187, 3204031479, 3329325298]

/-- The SHA-256 initial hash value (FIPS 180-4, written in decimal). -/
def sha256H0 : List Nat :=
  [1779033703, 3144134277, 1013904242, 2773480762, 1359893119, 2600822924, 528734635, 1541459225]

/-- Big-endian 64-bit length field of the padding. -/
def be64 (n : Nat) : List Nat :=
  [(n >>> 56) % 256, (n >>> 48) % 256, (n >>> 40) % 256, (n >>> 32) % 256,
   (n >>> 24) % 256, (n >>> 16) % 256, (n >>> 8) % 256, n % 256]

/-- SHA-256 message padding: `0x80`, zeros to 56 mod 64, then the bit length. -/
def sha256pad (msg : List Nat) : List Nat :=
  let L := msg.length
  msg ++ [0x80] ++ List.replicate ((119 - L % 64) % 64) 0 ++ be64 (8 * L)

/-- Split into 64-byte blocks, with structural fuel so that the definition
reduces inside the kernel (the fuel `l.length + 1` always suffices, as every
step consumes at least one byte of a nonempty list). -/
def chunksGo : Nat → List Nat → List (List Nat)
  | 0, _ => []
  | fuel + 1, l => if l.isEmpty then [] else l.take 64 :: chunksGo fuel (l.drop 64)

/-- Split into 64-byte blocks (the input length is a multiple of 64). -/
def chunks64 (l : List Nat) : List (List Nat) :=
  chunksGo (l.length + 1) l

/-- Big-endian 32-bit words of a block. -/
def toWords : List Nat → List Nat
  | b0 :: b1 :: b2 :: b3 :: rest => (((b0 * 256 + b1) * 256 + b2) * 256 + b3) :: toWords rest
  | _ => []

/-- One extension step of the message schedule. -/
def scheduleStep (w : List Nat) : List Nat :=
  let n := w.length
  let wi := fun i => w.getD i 0
  w ++ [(smallSigma1 (wi (n - 2)) + wi (n - 7) + smallSigma0 (wi (n - 15)) + wi (n - 16)) % 4294967296]

/-- Extend the 16-word schedule by `k` words. -/
def scheduleN : Nat → List Nat → List Nat
  | 0, w => w
  | k + 1, w => scheduleN k (scheduleStep w)

/-- One SHA-256 compression round on the working state `[a,b,c,d,e,f,g,h]`. -/
def sha256Round (s : List Nat) (ki wi : Nat) : List Nat :=
  match s with
  | [a, b, c, d, e, f, g, h] =>
    let ch := (e &&& f) ^^^ ((4294967295 ^^^ e) &&& g)
    let maj := (a &&& b) ^^^ (a &&& c) ^^^ (b &&& c)
    let t1 := (h + bigSigma1 e + ch + ki + wi) % 4294967296
    let t2 := (bigSigma0 a + maj) % 4294967296
    [(t1 + t2) % 4294967296, a, b, c, (d + t1) % 4294967296, e, f, g]
  | other => other

/-- Compress one 64-byte block into the hash state. -/
def sha256Block (state : List Nat) (block : List Nat) : List Nat :=
  let w := scheduleN 48 (toWords block)
  let s := (sha256K.zip w).foldl (fun s kw => sha256Round s kw.1 kw.2) state
  List.zipWith (fun a b => (a + b) % 4294967296) state s

/-- Eight lowercase hex digits of a 32-bit word. -/
def hex8 (w : Nat) : String :=
  String.mk [hexDigit ((w >>> 28) % 16), hexDigit ((w >>> 24) % 16),
             hexDigit ((w >>> 20) % 16), hexDigit ((w >>> 16) % 16),
             hexDigit ((w >>> 12) % 16), hexDigit ((w >>> 8) % 16),
             hexDigit ((w >>> 4) % 16), hexDigit (w % 16)]

/-- `hashlib.sha256(data).hexdigest()`. -/
def sha256_hex (data : List Nat) : String :=
  String.join (((chunks64 (sha256pad data)).foldl sha256Block sha256H0).map hex8)

/-- `sha256_prefixed(data) = "sha256:" + sha256_hex(data)` (`hashing.py`). -/
def sha256_prefixed (data : List Nat) : String :=
  "sha256:" ++ sha256_hex data

/-- `hash_json(obj) = sha256_prefixed(canonical_json_bytes(obj))` (`hashing.py`). -/
def hash_json (obj : JVal) : String :=
  sha256_prefixed (canonical_json_bytes obj)

/-! ## Python `re.match` on the regular fragment (`enforce.py` line 62)

`re.match(pattern, v)` attempts a match *at position 0* and succeeds if any
prefix of `v` matches — it does not require the whole string to match.
Patterns are modelled as compiled `RegularExpression Char` terms (the regular
fragment of Python `re`; a rule's `pattern` field holds the compiled form). -/

/-- `re.match(P, ·)` on a list of characters: succeed as soon as the consumed
prefix is in the language of `P`. -/
def reMatchL (P : RegularExpression Char) : List Char → Bool
  | [] => P.matchEpsilon
  | c :: cs => P.matchEpsilon || reMatchL (P.deriv c) cs

/-- `re.match(P, s) is not None`. -/
def reMatch (P : RegularExpression Char) (s : String) : Bool :=
  reMatchL P s.data

/-! ## Data model (`models.py`) -/

/-- The closed reason-code enumeration. -/
inductive ReasonCode where
  | OK
  | REQUEST_PARSE_ERROR
  | REQUEST_SCHEMA_INVALID
  | CTX_HASH_MISMATCH
  | PROFILE_NOT_FOUND
  | PROFILE_PARSE_ERROR
  | INVALID_PROFILE_DEFAULT
  | TOOL_NOT_ALLOWED
  | CONTROL_REQUIRED
  | CONSTRAINT_VIOLATION
  | CONSTRAINT_EVAL_ERROR
  | AUDIT_WRITE_FAILED
  | INTERNAL_ERROR
  deriving DecidableEq

/-- `ReasonCode(str)` / `.value`: the string value of each member. -/
def ReasonCode.value : ReasonCode → String
  | .OK => "OK"
  | .REQUEST_PARSE_ERROR => "REQUEST_PARSE_ERROR"
  | .REQUEST_SCHEMA_INVALID => "REQUEST_SCHEMA_INVALID"
  | .CTX_HASH_MISMATCH => "CTX_HASH_MISMATCH"
  | .PROFILE_NOT_FOUND => "PROFILE_NOT_FOUND"
  | .PROFILE_PARSE_ERROR => "PROFILE_PARSE_ERROR"
  | .INVALID_PROFILE_DEFAULT => "INVALID_PROFILE_DEFAULT"
  | .TOOL_NOT_ALLOWED => "TOOL_NOT_ALLOWED"
  | .CONTROL_REQUIRED => "CONTROL_REQUIRED"
  | .CONSTRAINT_VIOLATION => "CONSTRAINT_VIOLATION"
  | .CONSTRAINT_EVAL_ERROR => "CONSTRAINT_EVAL_ERROR"
  | .AUDIT_WRITE_FAILED => "AUDIT_WRITE_FAILED"
  | .INTERNAL_ERROR => "INTERNAL_ERROR"

/-- `ReasonCode._value2member_map_` lookup (used by `gate.py` to map a loader
error string back to a member). -/
def ReasonCode.ofValue : String → Option ReasonCode
  | "OK" => some .OK
  | "REQUEST_PARSE_ERROR" => some .REQUEST_PARSE_ERROR
  | "REQUEST_SCHEMA_INVALID" => some .REQUEST_SCHEMA_INVALID
  | "CTX_HASH_MISMATCH" => some .CTX_HASH_MISMATCH
  | "PROFILE_NOT_FOUND" => some .PROFILE_NOT_FOUND
  | "PROFILE_PARSE_ERROR" => some .PROFILE_PARSE_ERROR
  | "INVALID_PROFILE_DEFAULT" => some .INVALID_PROFILE_DEFAULT
  | "TOOL_NOT_ALLOWED" => some .TOOL_NOT_ALLOWED
  | "CONTROL_REQUIRED" => some .CONTROL_REQUIRED
  | "CONSTRAINT_VIOLATION" => some .CONSTRAINT_VIOLATION
  | "CONSTRAINT_EVAL_ERROR" => some .CONSTRAINT_EVAL_ERROR
  | "AUDIT_WRITE_FAILED" => some .AUDIT_WRITE_FAILED
  | "INTERNAL_ERROR" => some .INTERNAL_ERROR
  | _ => none

inductive DecisionType where
  | ALLOW
  | DENY
  | ESCALATE  -- reserved; the core emits only the first two
  deriving DecidableEq

structure Actor where
  principal_id : String
  principal_type : String
  attributes : List (String × String)

structure ToolCall where
  name : String
  args : JVal  -- opaque to ECL except for constraint evaluation

structure ProfileRef where
  id : String
  version : String

structure Context where
  snapshot : JVal
  snapshot_hash : String

structure Controls where
  approval_token : Option String
  nonce : Option String

structure ExecutionRequest where
  request_id : String
  actor : Actor
  tool : ToolCall
  profile : ProfileRef
  context : Context
  controls : Option Controls
  submitted_at : Option String  -- logged only, never used in decision logic

structure RequiredControls where
  approval_token : Bool

structure ArgRule where
  path : String
  type : String  -- "string", "number", "bool"
  pattern : Option (RegularExpression Char)
  max_len : Option Int
  enum : Option (List String)
  min : Option Int  -- the Python floats restricted to the integral case
  max : Option Int

structure Constraints where
  arg_rules : List ArgRule

structure ToolPermit where
  name : String
  required_controls : RequiredControls
  constraints : Option Constraints

structure ExecutionProfile where
  profile_id : String
  profile_version : String
  allowed_tools : List ToolPermit
  default : String  -- the loader's validator guarantees "DENY"

structure RuntimeMeta where
  name : String
  version : String
  build : String

structure DecisionProfileInfo where
  id : String
  version : String
  profile_ref_hash : String
  deriving DecidableEq

structure ApprovedCall where
  tool_name : String
  tool_args : JVal

structure ExecutionDecision where
  decision_type : DecisionType
  reason_code : ReasonCode
  request_hash : String
  provenance_id : String
  profile : DecisionProfileInfo
  runtime : RuntimeMeta
  approved_call : Option ApprovedCall  -- present only when decision_type = ALLOW

/-! ## The strict request validator (`ExecutionRequest.model_validate`,
pydantic with `extra="forbid"`) -/

/-- Dictionary field lookup (`json.loads` never yields duplicate keys). -/
def lookupKey (kvs : List (String × JVal)) (k : String) : Option JVal :=
  match kvs with
  | [] => none
  | kv :: rest => if kv.1 = k then some kv.2 else lookupKey rest k

/-- `extra="forbid"`: every present key is one of the declared fields. -/
def allowedKeys (kvs : List (String × JVal)) (allowed : List String) : Bool :=
  (kvs.map Prod.fst).all fun k => allowed.contains k

/-- A required `str = Field(min_length=1)` field. -/
def reqStr (kvs : List (String × JVal)) (k : String) : Option String :=
  match lookupKey kvs k with
  | some (.str s) => if s = "" then none else some s
  | _ => none

/-- An `Optional[str] = None` field: absent or `null` gives `None`; a string
gives the string; anything else is a validation error. -/
def optStrField (kvs : List (String × JVal)) (k : String) :
    Option (Option String) :=
  match lookupKey kvs k with
  | none => some none
  | some .null => some none
  | some (.str s) => some (some s)
  | some _ => none

/-- `Dict[str, str]` values. -/
def strMapOf : List (String × JVal) → Option (List (String × String))
  | [] => some []
  | (k, .str v) :: rest => (strMapOf rest).map fun m => (k, v) :: m
  | _ => none

def validateActor : JVal → Option Actor
  | .obj kvs =>
    if allowedKeys kvs ["principal_id", "principal_type", "attributes"] then
      match reqStr kvs "principal_id", reqStr kvs "principal_type",
            (match lookupKey kvs "attributes" with
             | none => some []  -- default_factory=dict
             | some (.obj akvs) => strMapOf akvs
             | some _ => none) with
      | some pid, some pt, some attrs => some ⟨pid, pt, attrs⟩
      | _, _, _ => none
    else none
  | _ => none

def validateToolCall : JVal → Option ToolCall
  | .obj kvs =>
    if allowedKeys kvs ["name", "args"] then
      match reqStr kvs "name", lookupKey kvs "args" with
      | some n, some v => some ⟨n, v⟩  -- `args : Any` is required but unconstrained
      | _, _ => none
    else none
  | _ => none

def validateProfileRef : JVal → Option ProfileRef
  | .obj kvs =>
    if allowedKeys kvs ["id", "version"] then
      match reqStr kvs "id", reqStr kvs "version" with
      | some i, some v => some ⟨i, v⟩
      | _, _ => none
    else none
  | _ => none

def validateContext : JVal → Option Context
  | .obj kvs =>
    if allowedKeys kvs ["snapshot", "snapshot_hash"] then
      match lookupKey kvs "snapshot", reqStr kvs "snapshot_hash" with
      | some snap, some h => some ⟨snap, h⟩
      | _, _ => none
    else none
  | _ => none

def validateControls : JVal → Option Controls
  | .obj kvs =>
    if allowedKeys kvs ["approval_token", "nonce"] then
      match optStrField kvs "approval_token", optStrField kvs "nonce" with
      | some a, some n => some ⟨a, n⟩
      | _, _ => none
    else none
  | _ => none

/-- `ExecutionRequest.model_validate(obj)`: `none` on `ValidationError`. -/
def validateRequest : JVal → Option ExecutionRequest
  | .obj kvs =>
    if allowedKeys kvs
        ["request_id", "actor", "tool", "profile", "context", "controls", "submitted_at"] then
      match reqStr kvs "request_id",
            (lookupKey kvs "actor").bind validateActor,
            (lookupKey kvs "tool").bind validateToolCall,
            (lookupKey kvs "profile").bind validateProfileRef,
            (lookupKey kvs "context").bind validateContext with
      | some rid, some actor, some tool, some profileRef, some ctx =>
        match (match lookupKey kvs "controls" with
               | none => some none          -- Optional[Controls] = None
               | some .null => some none
               | some v => (validateControls v).map some),
              optStrField kvs "submitted_at" with
        | some ctrls, some sub => some ⟨rid, actor, tool, profileRef, ctx, ctrls, sub⟩
        | _, _ => none
      | _, _, _, _, _ => none
    else none
  | _ => none

def optStrJ : Option String → JVal
  | none => .null
  | some s => .str s

def Controls.dump (c : Controls) : JVal :=
  .obj [("approval_token", optStrJ c.approval_token), ("nonce", optStrJ c.nonce)]

/-- `req.model_dump()`: the full dictionary form of a validated request
(every field present; `None` fields become JSON `null`). -/
def ExecutionRequest.model_dump (r : ExecutionRequest) : JVal :=
  .obj [("request_id", .str r.request_id),
        ("actor", .obj [("principal_id", .str r.actor.principal_id),
                        ("principal_type", .str r.actor.principal_type),
                        ("attributes", .obj (r.actor.attributes.map fun kv => (kv.1, .str kv.2)))]),
        ("tool", .obj [("name", .str r.tool.name), ("args", r.tool.args)]),
        ("profile", .obj [("id", .str r.profile.id), ("version", .str r.profile.version)]),
        ("context", .obj [("snapshot", r.context.snapshot),
                          ("snapshot_hash", .str r.context.snapshot_hash)]),
        ("controls", match r.controls with | none => .null | some c => c.dump),
        ("submitted_at", optStrJ r.submitted_at)]

/-! ## Enforcement engine (`enforce.py`) -/

/-- The loop of `find_tool_permit`: first permit with an exactly equal name. -/
def findPermitIn : List ToolPermit → String → Option ToolPermit
  | [], _ => none
  | p :: ps, n => if p.name = n then some p else findPermitIn ps n

def find_tool_permit (profile : ExecutionProfile) (tool_name : String) :
    Option ToolPermit :=
  findPermitIn profile.allowed_tools tool_name

def require_controls (req : ExecutionRequest) (permit : ToolPermit) :
    Option ReasonCode :=
  if permit.required_controls.approval_token then
    match (match req.controls with | some c => c.approval_token | none => none) with
    | none => some .CONTROL_REQUIRED         -- `if not token` (None is falsy)
    | some t =>
      if t = "" then some .CONTROL_REQUIRED  -- `if not token` (empty string is falsy)
      else if t ≠ "APPROVED" then some .CONTROL_REQUIRED
      else none
  else none

/-- `_get_arg_value`: only `$.<key>` paths; `.error` stands for the raised
`ValueError` (caught by `enforce_constraints` and turned into
`CONSTRAINT_EVAL_ERROR`).  `args.get(key, None)` yields `None` for a missing
key, conflated with JSON `null` as `JVal.null`. -/
def get_arg_value (args : JVal) (path : String) : Except Unit JVal :=
  match path.data with
  | '$' :: '.' :: keyChars =>
    match args with
    | .obj kvs => .ok ((lookupKey kvs (String.mk keyChars)).getD .null)
    | _ => .error ()  -- "args not object"
  | _ => .error ()    -- "unsupported path"

/-- `isinstance(v, (int, float))`.  Python's `bool` is a subclass of `int`,
so a boolean satisfies this check. -/
def isNumberPy : JVal → Bool
  | .int _ => true
  | .bool _ => true
  | _ => false

/-- `float(v)` on a value that passed `isNumberPy` (restricted to the
integral case; `float(True) = 1.0`, `float(False) = 0.0`). -/
def numValue : JVal → Int
  | .int n => n
  | .bool b => cond b 1 0
  | _ => 0

/-- The body of `enforce_constraints`' loop for one rule, with the raised
`ValueError` of `_get_arg_value` folded into `CONSTRAINT_EVAL_ERROR` (the
surrounding `except` clause produces exactly that). -/
def evalRule (args : JVal) (rule : ArgRule) : Option ReasonCode :=
  match get_arg_value args rule.path with
  | .error _ => some .CONSTRAINT_EVAL_ERROR
  | .ok .null => some .CONSTRAINT_VIOLATION  -- missing value fails closed
  | .ok v =>
    if rule.type = "string" then
      match v with
      | .str s =>
        if rule.max_len.any fun m => decide (m < (s.length : Int)) then
          some .CONSTRAINT_VIOLATION
        else if rule.enum.any fun es => !es.contains s then
          some .CONSTRAINT_VIOLATION
        else if rule.pattern.any fun P => !reMatch P s then
          some .CONSTRAINT_VIOLATION
        else none
      | _ => some .CONSTRAINT_VIOLATION
    else if rule.type = "number" then
      if isNumberPy v then
        if rule.min.any fun m => decide (numValue v < m) then some .CONSTRAINT_VIOLATION
        else if rule.max.any fun m => decide (m < numValue v) then some .CONSTRAINT_VIOLATION
        else none
      else some .CONSTRAINT_VIOLATION
    else if rule.type = "bool" then
      match v with
      | .bool _ => none
      | _ => some .CONSTRAINT_VIOLATION
    else some .CONSTRAINT_EVAL_ERROR  -- unknown rule type fails closed

/-- The `for rule in ...` loop: first non-passing rule decides. -/
def firstViolation (args : JVal) : List ArgRule → Option ReasonCode
  | [] => none
  | r :: rs =>
    match evalRule args r with
    | some rc => some rc
    | none => firstViolation args rs

def enforce_constraints (req : ExecutionRequest) (permit : ToolPermit) :
    Option ReasonCode :=
  match permit.constraints with
  | none => none
  | some c =>
    if c.arg_rules.isEmpty then none
    else firstViolation req.tool.args c.arg_rules

/-! ## Decision assembly (`decision.py`)

Modelled from the spec: `app/decision.py` is not under `src/` (only its
callers in `gate.py` are), so `provenance_id_from_inputs`,
`fallback_profile_ref_hash`, `deny_decision` and `allow_decision` follow
§4.3/§4.5 of the specification:
`provenance_id = hash_json({request_hash, profile_ref_hash, runtime_version})`,
the fallback profile ref hash is the digest of the canonical empty object,
`DENY` decisions omit `approved_call`, and `ALLOW` decisions carry reason
`OK` and echo the request's tool name and args verbatim. -/

/-- Modelled from the spec: §4.5 — the provenance id binds
`(request_hash, profile_ref_hash, runtime_version)`. -/
def provenance_id_from_inputs (request_hash profile_ref_hash runtime_version : String) :
    String :=
  hash_json (.obj [("request_hash", .str request_hash),
                   ("profile_ref_hash", .str profile_ref_hash),
                   ("runtime_version", .str runtime_version)])

/-- Modelled from the spec: §4.3 — the digest of the canonical empty object
`{}`, substituted when the loader did not run or failed. -/
def fallback_profile_ref_hash : String :=
  hash_json (.obj [])

/-- Modelled from the spec: §4.5/§7 — a `DENY` decision with the given
reason; no `approved_call`. -/
def deny_decision (reason : ReasonCode)
    (request_hash profile_id profile_version profile_ref_hash : String)
    (runtime : RuntimeMeta) : ExecutionDecision :=
  { decision_type := .DENY
    reason_code := reason
    request_hash := request_hash
    provenance_id := provenance_id_from_inputs request_hash profile_ref_hash runtime.version
    profile := ⟨profile_id, profile_version, profile_ref_hash⟩
    runtime := runtime
    approved_call := none }

/-- Modelled from the spec: §4.5 — the single `ALLOW` decision, reason `OK`,
`approved_call` echoing the request's tool verbatim. -/
def allow_decision (request_hash profile_id profile_version profile_ref_hash : String)
    (tool_name : String) (tool_args : JVal) (runtime : RuntimeMeta) : ExecutionDecision :=
  { decision_type := .ALLOW
    reason_code := .OK
    request_hash := request_hash
    provenance_id := provenance_id_from_inputs request_hash profile_ref_hash runtime.version
    profile := ⟨profile_id, profile_version, profile_ref_hash⟩
    runtime := runtime
    approved_call := some ⟨tool_name, tool_args⟩ }

/-! ## Gate orchestrator (`gate.py`, `execute`)

The pipeline is a pure function of the raw body, the parse outcome, the
profile store and the runtime identity:
* `raw : List Nat` is the request body bytes;
* `obj? : Option JVal` is the outcome of `json.loads(raw.decode("utf-8"))`
  (`none` = the decode or parse raised);
* `loadProfile` is the content-addressed profile store (`profiles.py` is not
  under `src/`): `.error e` models the raised `RuntimeError(e)`, which
  `gate.py` maps back onto a `ReasonCode`, defaulting to
  `PROFILE_PARSE_ERROR`;
* `auditFails` models `append_audit_record` raising on the terminal audit
  write of the taken branch; the surrounding `except Exception` then
  substitutes an `INTERNAL_ERROR` deny built from the *current* local
  variables and `sha256_prefixed(raw)` (the second audit attempt inside the
  handler is assumed not to raise, as the reply is the same either way). -/

/-- The `RuntimeError` → reason mapping of `gate.py` lines 140–145. -/
def reasonOfLoadError (e : String) : ReasonCode :=
  (ReasonCode.ofValue e).getD .PROFILE_PARSE_ERROR

/-- The branch structure of `execute` up to the audit write: the decision
plus the local variables `(profile_id, profile_version, profile_ref_hash)`
as they stand when the branch's audit append runs. -/
def executeSteps (runtime : RuntimeMeta)
    (loadProfile : String → String → Except String (ExecutionProfile × String))
    (raw : List Nat) (obj? : Option JVal) :
    ExecutionDecision × String × String × String :=
  let fb := fallback_profile_ref_hash
  match obj? with
  | none =>
    -- json.loads raised → REQUEST_PARSE_ERROR over the raw bytes
    (deny_decision .REQUEST_PARSE_ERROR (sha256_prefixed raw) "UNKNOWN" "UNKNOWN" fb runtime,
     "UNKNOWN", "UNKNOWN", fb)
  | some obj =>
    match validateRequest obj with
    | none =>
      -- ValidationError → REQUEST_SCHEMA_INVALID over the canonical form of `obj`
      (deny_decision .REQUEST_SCHEMA_INVALID (sha256_prefixed (canonical_json_bytes obj))
         "UNKNOWN" "UNKNOWN" fb runtime,
       "UNKNOWN", "UNKNOWN", fb)
    | some req =>
      let pid := req.profile.id
      let pver := req.profile.version
      let req_hash := hash_json req.model_dump
      if req.context.snapshot_hash ≠ hash_json req.context.snapshot then
        (deny_decision .CTX_HASH_MISMATCH req_hash pid pver fb runtime, pid, pver, fb)
      else
        match loadProfile pid pver with
        | .error e =>
          (deny_decision (reasonOfLoadError e) req_hash pid pver fb runtime, pid, pver, fb)
        | .ok (profile_model, prh) =>
          match find_tool_permit profile_model req.tool.name with
          | none =>
            (deny_decision .TOOL_NOT_ALLOWED req_hash pid pver prh runtime, pid, pver, prh)
          | some permit =>
            match require_controls req permit with
            | some rc =>
              (deny_decision rc req_hash pid pver prh runtime, pid, pver, prh)
            | none =>
              match enforce_constraints req permit with
              | some rc2 =>
                (deny_decision rc2 req_hash pid pver prh runtime, pid, pver, prh)
              | none =>
                (allow_decision req_hash pid pver prh req.tool.name req.tool.args runtime,
                 pid, pver, prh)

/-- `POST /v1/execute`: the decision returned to the caller. -/
def execute (runtime : RuntimeMeta)
    (loadProfile : String → String → Except String (ExecutionProfile × String))
    (auditFails : Bool) (raw : List Nat) (obj? : Option JVal) : ExecutionDecision :=
  match executeSteps runtime loadProfile raw obj? with
  | (decision, pid, pver, prh) =>
    if auditFails then
      deny_decision .INTERNAL_ERROR (sha256_prefixed raw) pid pver prh runtime
    else decision

/-- The single success path of the pipeline: parse, schema validation,
context integrity, profile load, permit lookup, required controls and
argument constraints all succeed, and the audit append does not raise. -/
def successPath (loadProfile : String → String → Except String (ExecutionProfile × String))
    (auditFails : Bool) (obj? : Option JVal) : Prop :=
  auditFails = false ∧
  ∃ obj req profile_model prh permit,
    obj? = some obj ∧
    validateRequest obj = some req ∧
    req.context.snapshot_hash = hash_json req.context.snapshot ∧
    loadProfile req.profile.id req.profile.version = .ok (profile_model, prh) ∧
    find_tool_permit profile_model req.tool.name = some permit ∧
    require_controls req permit = none ∧
    enforce_constraints req permit = none

/-! ## Auxiliary predicates for the claims -/

/-- The path shapes `_get_arg_value` supports: `"$."` followed by a key
(the key is taken verbatim as a single top-level field name). -/
def pathSupported (p : String) : Bool :=
  match p.data with
  | '$' :: '.' :: _ => true
  | _ => false

def JVal.isObj : JVal → Bool
  | .obj _ => true
  | _ => false

/-- Pairwise-distinct key list (what `json.loads` guarantees of every
object). -/
def distinctKeys : List String → Bool
  | [] => true
  | k :: ks => (decide (k ∉ ks)) && distinctKeys ks

mutual

/-- Every object anywhere inside the value has pairwise-distinct keys. -/
def nodupKeysJ : JVal → Bool
  | .null => true
  | .bool _ => true
  | .int _ => true
  | .str _ => true
  | .arr xs => nodupKeysArr xs
  | .obj kvs => distinctKeys (kvs.map Prod.fst) && nodupKeysKVs kvs

def nodupKeysArr : List JVal → Bool
  | [] => true
  | x :: xs => nodupKeysJ x && nodupKeysArr xs

def nodupKeysKVs : List (String × JVal) → Bool
  | [] => true
  | kv :: kvs => nodupKeysJ kv.2 && nodupKeysKVs kvs

end

/-- `keyPerm v w` says `w` is `v` with the entries of objects reordered,
anywhere inside the value (entry-wise congruence plus a permutation at each
object level). -/
inductive keyPerm : JVal → JVal → Prop where
  | refl (v : JVal) : keyPerm v v
  | arrNil : keyPerm (.arr []) (.arr [])
  | arrCons {x y : JVal} {xs ys : List JVal} :
      keyPerm x y → keyPerm (.arr xs) (.arr ys) →
      keyPerm (.arr (x :: xs)) (.arr (y :: ys))
  | objNil : keyPerm (.obj []) (.obj [])
  | objCons {k : String} {v w : JVal} {kvs kvs' : List (String × JVal)} :
      keyPerm v w → keyPerm (.obj kvs) (.obj kvs') →
      keyPerm (.obj ((k, v) :: kvs)) (.obj ((k, w) :: kvs'))
  | objPerm {kvs kvs' kvs'' : List (String × JVal)} :
      kvs.Perm kvs' → keyPerm (.obj kvs') (.obj kvs'') →
      keyPerm (.obj kvs) (.obj kvs'')

/-- Strict key order on serialized entries. -/
def kvLT (a b : String × String) : Prop := a.1.data < b.1.data

instance : IsAntisymm (String × String) kvLT :=
  ⟨fun _ _ h1 h2 => (lt_asymm h1 h2).elim⟩

/-! ## Concrete fixtures (the `example/1.0.0` scenario of the tests) -/

def sampleRuntime : RuntimeMeta := ⟨"ecl-reference-runtime", "0.1.0", "dev"⟩

/-- A permissive `email.send` permit plus a `storage.put` permit requiring
the approval token. -/
def sampleProfile : ExecutionProfile :=
  ⟨"example", "1.0.0",
   [⟨"email.send", ⟨false⟩, none⟩, ⟨"storage.put", ⟨true⟩, none⟩], "DENY"⟩

/-- A content-addressed store holding exactly `example/1.0.0`. -/
def sampleLoad : String → String → Except String (ExecutionProfile × String) :=
  fun id ver =>
    if id = "example" ∧ ver = "1.0.0" then .ok (sampleProfile, hash_json (.obj []))
    else .error "PROFILE_NOT_FOUND"

def sampleSnapshot : JVal := .obj [("x", .int 1)]

/-- The request body of the happy-path scenario, as parsed JSON. -/
def sampleReqObj : JVal :=
  .obj [("request_id", .str "req_allow"),
        ("actor", .obj [("principal_id", .str "user:1"),
                        ("principal_type", .str "user"),
                        ("attributes", .obj [])]),
        ("tool", .obj [("name", .str "email.send"),
                       ("args", .obj [("to", .str "bob@example.com"), ("subject", .str "hi")])]),
        ("profile", .obj [("id", .str "example"), ("version", .str "1.0.0")]),
        ("context", .obj [("snapshot", sampleSnapshot),
                          ("snapshot_hash", .str (hash_json sampleSnapshot))]),
        ("controls", .obj [])]

/-- The validated form of `sampleReqObj`. -/
def sampleReq : ExecutionRequest :=
  ⟨"req_allow", ⟨"user:1", "user", []⟩,
   ⟨"email.send", .obj [("to", .str "bob@example.com"), ("subject", .str "hi")]⟩,
   ⟨"example", "1.0.0"⟩,
   ⟨sampleSnapshot, hash_json sampleSnapshot⟩,
   some ⟨none, none⟩, none⟩

/-- A permit for `dup.tool` requiring an approval token. -/
def dupPermitA : ToolPermit := ⟨"dup.tool", ⟨true⟩, none⟩

/-- A second permit for the same tool name, requiring nothing. -/
def dupPermitB : ToolPermit := ⟨"dup.tool", ⟨false⟩, none⟩

def dupProfile : ExecutionProfile :=
  ⟨"dup", "1.0.0", [dupPermitA, dupPermitB], "DENY"⟩

/-- The constrained argument of the C3 failing input: a JSON boolean under a
`number`-typed rule. -/
def boolNumRule : ArgRule := ⟨"$.flag", "number", none, none, none, none, none⟩

def boolNumPermit : ToolPermit := ⟨"feature.toggle", ⟨false⟩, some ⟨[boolNumRule]⟩⟩

def boolNumReq : ExecutionRequest :=
  ⟨"req_bool_num", ⟨"user:1", "user", []⟩,
   ⟨"feature.toggle", .obj [("flag", .bool true)]⟩,
   ⟨"example", "1.0.0"⟩, ⟨.null, "sha256:0"⟩, none, none⟩

/-- A request whose tool args bind `key` to the string `v`. -/
def patternReq (key v : String) : ExecutionRequest :=
  ⟨"req_pattern", ⟨"user:1", "user", []⟩,
   ⟨"email.send", .obj [(key, .str v)]⟩,
   ⟨"example", "1.0.0"⟩, ⟨.null, "sha256:0"⟩, none, none⟩

/-- A permit whose single constraint is a `string` rule with the pattern `P`
on `$.key`. -/
def patternPermit (key : String) (P : RegularExpression Char) : ToolPermit :=
  ⟨"email.send", ⟨false⟩, some ⟨[⟨"$." ++ key, "string", some P, none, none, none, none⟩]⟩⟩

/-- A rule whose path `"to"` lacks the `$.` form. -/
def badPathRule : ArgRule := ⟨"to", "string", none, none, none, none, none⟩

def badPathPermit : ToolPermit := ⟨"email.send", ⟨false⟩, some ⟨[badPathRule]⟩⟩

def badPathReq : ExecutionRequest :=
  ⟨"req_bad_path", ⟨"user:1", "user", []⟩,
   ⟨"email.send", .obj [("to", .str "bob@example.com")]⟩,
   ⟨"example", "1.0.0"⟩, ⟨.null, "sha256:0"⟩, none, none⟩

/-- The raw bytes `"[1, 2]"`: valid JSON, schema-invalid, and its canonical
form `"[1,2]"` differs from the raw bytes. -/
def c4raw : List Nat := utf8Bytes "[1, 2]"

def c4obj : JVal := .arr [.int 1, .int 2]

/-- A nested value with keys in one order (see `reorderedW`). -/
def reorderedV : JVal :=
  .obj [("b", .int 1), ("a", .obj [("y", .int 2), ("x", .int 3)])]

/-- The value of `reorderedV` with both object levels reordered. -/
def reorderedW : JVal :=
  .obj [("a", .obj [("x", .int 3), ("y", .int 2)]), ("b", .int 1)]

/-! ## Basic facts about the pipeline -/

theorem deny_decision_type (reason rh pid pver prh rt) :
    (deny_decision reason rh pid pver prh rt).decision_type = .DENY := rfl

/-- Branch analysis of `executeSteps`: every branch but the last yields a
`DENY` built by `deny_decision`, and the last yields the `ALLOW` of
`allow_decision` exactly when every stage succeeded. -/
theorem executeSteps_allow (rt : RuntimeMeta)
    (lp : String → String → Except String (ExecutionProfile × String))
    (raw : List Nat) (obj? : Option JVal)
    (h : (executeSteps rt lp raw obj?).1.decision_type = .ALLOW) :
    (∃ obj req profile_model prh permit,
      obj? = some obj ∧
      validateRequest obj = some req ∧
      req.context.snapshot_hash = hash_json req.context.snapshot ∧
      lp req.profile.id req.profile.version = .ok (profile_model, prh) ∧
      find_tool_permit profile_model req.tool.name = some permit ∧
      require_controls req permit = none ∧
      enforce_constraints req permit = none) ∧
    (executeSteps rt lp raw obj?).1.reason_code = .OK ∧
    (∃ obj req,
      obj? = some obj ∧ validateRequest obj = some req ∧
      (executeSteps rt lp raw obj?).1.approved_call = some ⟨req.tool.name, req.tool.args⟩) := by
  unfold executeSteps at *
  dsimp only at h ⊢
  split at h
  · simp [deny_decision] at h
  next obj =>
    split at h
    · simp [deny_decision] at h
    next req hval =>
      split at h
      · simp [deny_decision] at h
      next hctx =>
        split at h
        · simp [deny_decision] at h
        next profile_model prh hload =>
          split at h
          · simp [deny_decision] at h
          next permit hperm =>
            split at h
            · simp [deny_decision] at h
            next hctrl =>
              split at h
              · simp [deny_decision] at h
              next hcons =>
                refine ⟨⟨obj, req, profile_model, prh, permit, rfl, hval,
                  not_ne_iff.mp hctx, hload, hperm, hctrl, hcons⟩, ?_, obj, req, rfl, hval, ?_⟩
                · simp [executeSteps, hval, not_ne_iff.mp hctx, hload, hperm, hctrl, hcons,
                    allow_decision]
                · simp [executeSteps, hval, not_ne_iff.mp hctx, hload, hperm, hctrl, hcons,
                    allow_decision]

/-- Every branch of `executeSteps` whose reason is not `OK` is a `DENY`. -/
theorem executeSteps_fail_closed (rt : RuntimeMeta)
    (lp : String → String → Except String (ExecutionProfile × String))
    (raw : List Nat) (obj? : Option JVal)
    (h : (executeSteps rt lp raw obj?).1.reason_code ≠ .OK) :
    (executeSteps rt lp raw obj?).1.decision_type = .DENY := by
  unfold executeSteps
  dsimp only
  split
  · rfl
  next obj =>
    split
    · rfl
    next req hval =>
      split
      · rfl
      next hctx =>
        split
        · rfl
        next profile_model prh hload =>
          split
          · rfl
          next permit hperm =>
            split
            · rfl
            next hctrl =>
              split
              · rfl
              next hcons =>
                exfalso
                apply h
                simp [executeSteps, hval, hctx, hload, hperm, hctrl, hcons, allow_decision]

/-- `approved_call` is populated exactly by the `ALLOW` branch. -/
theorem executeSteps_call_iff (rt : RuntimeMeta)
    (lp : String → String → Except String (ExecutionProfile × String))
    (raw : List Nat) (obj? : Option JVal) :
    ((executeSteps rt lp raw obj?).1.approved_call ≠ none ↔
      (executeSteps rt lp raw obj?).1.decision_type = .ALLOW) := by
  unfold executeSteps
  dsimp only
  repeat' split
  all_goals simp [deny_decision, allow_decision]

/-- The provenance id of every branch is computed from the decision's own
`request_hash` and `profile_ref_hash` and the runtime version. -/
theorem executeSteps_prov (rt : RuntimeMeta)
    (lp : String → String → Except String (ExecutionProfile × String))
    (raw : List Nat) (obj? : Option JVal) :
    (executeSteps rt lp raw obj?).1.provenance_id =
      provenance_id_from_inputs (executeSteps rt lp raw obj?).1.request_hash
        (executeSteps rt lp raw obj?).1.profile.profile_ref_hash rt.version := by
  unfold executeSteps
  dsimp only
  repeat' split
  all_goals rfl

/-- C1 (fail-closed): a decision whose reason is not `OK` is a `DENY`, and
`ALLOW` arises only on the single success path (with reason `OK`). -/
theorem gate_fail_closed (rt : RuntimeMeta)
    (lp : String → String → Except String (ExecutionProfile × String))
    (af : Bool) (raw : List Nat) (obj? : Option JVal) :
    ((execute rt lp af raw obj?).reason_code ≠ .OK →
      (execute rt lp af raw obj?).decision_type = .DENY) ∧
    ((execute rt lp af raw obj?).decision_type = .ALLOW →
      successPath lp af obj? ∧ (execute rt lp af raw obj?).reason_code = .OK) := by
  unfold execute
  rcases hs : executeSteps rt lp raw obj? with ⟨d, pid, pver, prh⟩
  cases af with
  | true =>
    refine ⟨fun _ => rfl, fun h => absurd h (by simp [deny_decision])⟩
  | false =>
    dsimp only
    constructor
    · intro h
      have h1 := executeSteps_fail_closed rt lp raw obj?
      rw [hs] at h1
      exact h1 h
    · intro h
      have h2 := executeSteps_allow rt lp raw obj? (by rw [hs]; exact h)
      rw [hs] at h2
      exact ⟨⟨rfl, h2.1⟩, h2.2.1⟩

/-- C2: `approved_call` is present iff the decision is `ALLOW`, and then it
echoes the validated request's tool name and args exactly. -/
theorem gate_approved_call (rt : RuntimeMeta)
    (lp : String → String → Except String (ExecutionProfile × String))
    (af : Bool) (raw : List Nat) (obj? : Option JVal) :
    ((execute rt lp af raw obj?).approved_call ≠ none ↔
      (execute rt lp af raw obj?).decision_type = .ALLOW) ∧
    (∀ obj req, obj? = some obj → validateRequest obj = some req →
      (execute rt lp af raw obj?).decision_type = .ALLOW →
      (execute rt lp af raw obj?).approved_call = some ⟨req.tool.name, req.tool.args⟩) := by
  unfold execute
  rcases hs : executeSteps rt lp raw obj? with ⟨d, pid, pver, prh⟩
  cases af with
  | true =>
    refine ⟨by simp [deny_decision], fun obj req _ _ h => absurd h (by simp [deny_decision])⟩
  | false =>
    dsimp only
    constructor
    · have := executeSteps_call_iff rt lp raw obj?
      rwa [hs] at this
    · intro obj req hobj hval h
      have h2 := executeSteps_allow rt lp raw obj? (by rw [hs]; exact h)
      rw [hs] at h2
      obtain ⟨obj', req', hobj', hval', hcall⟩ := h2.2.2
      rw [hobj] at hobj'
      cases Option.some.inj hobj'
      rw [hval] at hval'
      cases Option.some.inj hval'
      exact hcall

/-- C5: the provenance id of every decision is exactly
`provenance_id_from_inputs(request_hash, profile_ref_hash, runtime_version)`
— it depends on nothing else, so identical request bytes against the same
profile and runtime yield the same provenance id. -/
theorem gate_provenance_binding (rt : RuntimeMeta)
    (lp : String → String → Except String (ExecutionProfile × String))
    (af : Bool) (raw : List Nat) (obj? : Option JVal) :
    (execute rt lp af raw obj?).provenance_id =
      provenance_id_from_inputs (execute rt lp af raw obj?).request_hash
        (execute rt lp af raw obj?).profile.profile_ref_hash rt.version := by
  unfold execute
  rcases hs : executeSteps rt lp raw obj? with ⟨d, pid, pver, prh⟩
  cases af with
  | true => rfl
  | false =>
    dsimp only
    have := executeSteps_prov rt lp raw obj?
    rwa [hs] at this

/-- C10: decisions made before profile loading carry well-formed profile
fields — `UNKNOWN/UNKNOWN` plus the fallback hash for pre-schema failures,
and the request's profile reference plus the fallback hash on a context-hash
mismatch. -/
theorem gate_early_profile_fields (rt : RuntimeMeta)
    (lp : String → String → Except String (ExecutionProfile × String))
    (af : Bool) (raw : List Nat) (obj? : Option JVal) :
    (obj? = none →
      (execute rt lp af raw obj?).profile =
        ⟨"UNKNOWN", "UNKNOWN", fallback_profile_ref_hash⟩) ∧
    (∀ obj, obj? = some obj → validateRequest obj = none →
      (execute rt lp af raw obj?).profile =
        ⟨"UNKNOWN", "UNKNOWN", fallback_profile_ref_hash⟩) ∧
    (∀ obj req, obj? = some obj → validateRequest obj = some req →
      req.context.snapshot_hash ≠ hash_json req.context.snapshot →
      (execute rt lp af raw obj?).profile =
        ⟨req.profile.id, req.profile.version, fallback_profile_ref_hash⟩) := by
  refine ⟨?_, ?_, ?_⟩
  · intro h
    subst h
    unfold execute executeSteps
    cases af <;> rfl
  · intro obj h hval
    subst h
    unfold execute executeSteps
    dsimp only
    rw [hval]
    cases af <;> rfl
  · intro obj req h hval hctx
    subst h
    unfold execute executeSteps
    dsimp only
    rw [hval]
    dsimp only
    rw [if_pos hctx]
    cases af <;> rfl

/-- On every post-schema branch the `request_hash` is `hash_json` of the
validated request model. -/
theorem executeSteps_post_schema_hash (rt : RuntimeMeta)
    (lp : String → String → Except String (ExecutionProfile × String))
    (raw : List Nat) (obj : JVal) (req : ExecutionRequest)
    (hval : validateRequest obj = some req) :
    (executeSteps rt lp raw (some obj)).1.request_hash = hash_json req.model_dump := by
  unfold executeSteps
  dsimp only
  rw [hval]
  dsimp only
  repeat' split
  all_goals rfl

/-- C4 (amended): `request_hash` is the digest of the raw bytes on parse
failure, the digest of the canonical form of the parsed JSON on
schema-validation failure, and `hash_json` of the validated request model on
every post-schema path. -/
theorem gate_request_hash_paths (rt : RuntimeMeta)
    (lp : String → String → Except String (ExecutionProfile × String))
    (raw : List Nat) (obj? : Option JVal) :
    (obj? = none →
      (execute rt lp false raw obj?).request_hash = sha256_prefixed raw) ∧
    (∀ obj, obj? = some obj → validateRequest obj = none →
      (execute rt lp false raw obj?).request_hash =
        sha256_prefixed (canonical_json_bytes obj)) ∧
    (∀ obj req, obj? = some obj → validateRequest obj = some req →
      (execute rt lp false raw obj?).request_hash = hash_json req.model_dump) := by
  refine ⟨?_, ?_, ?_⟩
  · intro h
    subst h
    rfl
  · intro obj h hval
    subst h
    unfold execute executeSteps
    dsimp only
    rw [hval]
    rfl
  · intro obj req h hval
    subst h
    have := executeSteps_post_schema_hash rt lp raw obj req hval
    unfold execute
    rcases hs : executeSteps rt lp raw (some obj) with ⟨d, pid, pver, prh⟩
    rw [hs] at this
    exact this

/-! ## Enforcement-level claims -/

/-- The loop of `find_tool_permit` returns the first name match. -/
theorem findPermitIn_first (n : String) (l1 l2 : List ToolPermit) (p : ToolPermit)
    (hp : p.name = n) (hbefore : ∀ q ∈ l1, q.name ≠ n) :
    findPermitIn (l1 ++ p :: l2) n = some p := by
  induction l1 with
  | nil => simp [findPermitIn, hp]
  | cons q qs ih =>
    have hq : q.name ≠ n := hbefore q (List.mem_cons_self q qs)
    simp only [List.cons_append, findPermitIn, if_neg hq]
    exact ih fun r hr => hbefore r (List.mem_cons_of_mem q hr)

/-- C9: with duplicate permit names, the first permit in list order governs —
`find_tool_permit` returns it, so its required controls and constraints are
the ones enforced and later same-named permits are never consulted. -/
theorem find_tool_permit_first (profile : ExecutionProfile) (n : String)
    (l1 l2 : List ToolPermit) (p : ToolPermit)
    (hsplit : profile.allowed_tools = l1 ++ p :: l2)
    (hp : p.name = n) (hbefore : ∀ q ∈ l1, q.name ≠ n) :
    find_tool_permit profile n = some p := by
  unfold find_tool_permit
  rw [hsplit]
  exact findPermitIn_first n l1 l2 p hp hbefore

/-- Witness for C9 at a profile holding two permits named `dup.tool`: the
first one is returned. -/
theorem find_tool_permit_first_witness :
    find_tool_permit dupProfile "dup.tool" = some dupPermitA :=
  find_tool_permit_first dupProfile "dup.tool" [] [dupPermitB] dupPermitA rfl rfl
    (by intro q hq; cases hq)

/-- C3 (code behaviour at the failing input): Python's
`isinstance(v, (int, float))` accepts a boolean (`bool` subclasses `int`),
so a boolean value under a `number` rule passes constraint evaluation with
no violation — the spec instead requires `CONSTRAINT_VIOLATION`. -/
theorem bool_passes_number_rule :
    isNumberPy (.bool true) = true ∧
    enforce_constraints boolNumReq boolNumPermit = none :=
  ⟨rfl, rfl⟩

/-- `rmatch` consumes one character by deriving. -/
theorem rmatch_cons (P : RegularExpression Char) (c : Char) (cs : List Char) :
    (P.deriv c).rmatch cs = P.rmatch (c :: cs) := rfl

/-- `matchEpsilon` is `rmatch` at the empty string. -/
theorem matchEpsilon_iff_nil_mem (P : RegularExpression Char) :
    P.matchEpsilon = true ↔ [] ∈ P.matches' :=
  P.rmatch_iff_matches' []

/-- The prefix-matching loop of `re.match`: it succeeds iff some prefix of
the input is in the language of the pattern. -/
theorem reMatchL_iff (P : RegularExpression Char) (l : List Char) :
    reMatchL P l = true ↔ ∃ p q, l = p ++ q ∧ p ∈ P.matches' := by
  induction l generalizing P with
  | nil =>
    rw [reMatchL]
    constructor
    · intro h
      exact ⟨[], [], rfl, (matchEpsilon_iff_nil_mem P).mp h⟩
    · rintro ⟨p, q, hpq, hp⟩
      obtain ⟨hp0, -⟩ := List.append_eq_nil.mp hpq.symm
      subst hp0
      exact (matchEpsilon_iff_nil_mem P).mpr hp
  | cons c cs ih =>
    rw [reMatchL, Bool.or_eq_true]
    constructor
    · rintro (h | h)
      · exact ⟨[], c :: cs, rfl, (matchEpsilon_iff_nil_mem P).mp h⟩
      · obtain ⟨p, q, hpq, hp⟩ := (ih (P.deriv c)).mp h
        refine ⟨c :: p, q, by rw [hpq, List.cons_append], ?_⟩
        rw [← RegularExpression.rmatch_iff_matches'] at hp ⊢
        rwa [rmatch_cons] at hp
    · rintro ⟨p, q, hpq, hp⟩
      cases p with
      | nil =>
        left
        exact (matchEpsilon_iff_nil_mem P).mpr hp
      | cons c' p' =>
        rw [List.cons_append] at hpq
        injection hpq with h1 h2
        subst h1
        right
        refine (ih (P.deriv c)).mpr ⟨p', q, h2, ?_⟩
        rw [← RegularExpression.rmatch_iff_matches'] at hp ⊢
        rwa [rmatch_cons]

/-- `_get_arg_value` on a well-formed `$.<key>` path is a dictionary lookup. -/
theorem get_arg_value_dollar (args : JVal) (key : String) :
    get_arg_value args ("$." ++ key) =
      match args with
      | .obj kvs => .ok ((lookupKey kvs key).getD .null)
      | _ => .error () := by
  cases key with
  | mk kd => rfl

/-- The single pattern rule of `patternPermit` passes iff `re.match` does. -/
theorem evalRule_pattern (P : RegularExpression Char) (key v : String) :
    evalRule (.obj [(key, .str v)]) ⟨"$." ++ key, "string", some P, none, none, none, none⟩ =
      if reMatch P v then none else some .CONSTRAINT_VIOLATION := by
  unfold evalRule
  rw [get_arg_value_dollar]
  dsimp only [lookupKey]
  rw [if_pos rfl]
  cases h : reMatch P v <;> simp [h]

/-- C6: the pattern check is `re.match` — an *unanchored* match at position
0.  For every pattern `P` and value `v`, the rule passes iff some prefix of
`v` is in the language of `P`; in particular a value whose prefix matches
passes even when the remainder does not. -/
theorem pattern_match_is_unanchored (P : RegularExpression Char) (key v : String) :
    enforce_constraints (patternReq key v) (patternPermit key P) = none ↔
      ∃ p q, v.data = p ++ q ∧ p ∈ P.matches' := by
  rw [← reMatchL_iff]
  unfold enforce_constraints patternPermit patternReq
  dsimp only
  simp only [List.isEmpty_cons, Bool.false_eq_true, if_false, firstViolation]
  rw [evalRule_pattern]
  unfold reMatch
  cases h : reMatchL P v.data <;> simp [h]

theorem get_arg_value_bad_path (args : JVal) (path : String)
    (h : pathSupported path = false) : get_arg_value args path = .error () := by
  unfold pathSupported at h
  unfold get_arg_value
  split at h
  · simp at h
  · rfl

theorem evalRule_bad_path (args : JVal) (rule : ArgRule)
    (h : pathSupported rule.path = false) :
    evalRule args rule = some .CONSTRAINT_EVAL_ERROR := by
  unfold evalRule
  rw [get_arg_value_bad_path args rule.path h]

theorem evalRule_args_not_obj (args : JVal) (rule : ArgRule)
    (h : args.isObj = false) :
    evalRule args rule = some .CONSTRAINT_EVAL_ERROR := by
  unfold evalRule
  have herr : get_arg_value args rule.path = .error () := by
    unfold get_arg_value
    split
    · cases args <;> simp_all [JVal.isObj]
    · rfl
  rw [herr]

/-- The constraint loop reaches `rule` after the passing head rules and
stops at its outcome. -/
theorem firstViolation_append (args : JVal) (pre : List ArgRule) (rule : ArgRule)
    (post : List ArgRule) (rc : ReasonCode)
    (hpre : ∀ r ∈ pre, evalRule args r = none)
    (hrule : evalRule args rule = some rc) :
    firstViolation args (pre ++ rule :: post) = some rc := by
  induction pre with
  | nil => simp [firstViolation, hrule]
  | cons r rs ih =>
    rw [List.cons_append, firstViolation, hpre r (List.mem_cons_self r rs)]
    exact ih fun r' hr' => hpre r' (List.mem_cons_of_mem r hr')

/-- C7: a rule whose path does not start with `"$."` makes constraint
evaluation fail with `CONSTRAINT_EVAL_ERROR` once the loop reaches it, and
when the request's `tool.args` is not a JSON object, evaluation of any rule
list fails with `CONSTRAINT_EVAL_ERROR`. -/
theorem unsupported_path_eval_error (req : ExecutionRequest) (permit : ToolPermit)
    (c : Constraints) (hc : permit.constraints = some c) :
    (∀ pre rule post, c.arg_rules = pre ++ rule :: post →
      (∀ r ∈ pre, evalRule req.tool.args r = none) →
      pathSupported rule.path = false →
      enforce_constraints req permit = some .CONSTRAINT_EVAL_ERROR) ∧
    (req.tool.args.isObj = false → c.arg_rules ≠ [] →
      enforce_constraints req permit = some .CONSTRAINT_EVAL_ERROR) := by
  constructor
  · intro pre rule post hsplit hpre hpath
    unfold enforce_constraints
    rw [hc]
    dsimp only
    rw [hsplit, if_neg (by simp)]
    exact firstViolation_append _ pre rule post _ hpre (evalRule_bad_path _ rule hpath)
  · intro hobj hne
    unfold enforce_constraints
    rw [hc]
    dsimp only
    rcases hr : c.arg_rules with _ | ⟨r, rs⟩
    · exact absurd hr hne
    · rw [if_neg (by simp), firstViolation, evalRule_args_not_obj _ r hobj]

/-- Witness for C7 at the concrete rule path `"to"`. -/
theorem unsupported_path_eval_error_witness :
    enforce_constraints badPathReq badPathPermit = some .CONSTRAINT_EVAL_ERROR :=
  (unsupported_path_eval_error badPathReq badPathPermit ⟨[badPathRule]⟩ rfl).1
    [] badPathRule [] rfl (by intro r hr; cases hr) rfl

theorem sampleReq_validates : validateRequest sampleReqObj = some sampleReq := rfl

/-- Witness for C1: a parse failure yields a non-`OK` reason and hence a
`DENY`. -/
theorem gate_fail_closed_witness :
    (execute sampleRuntime sampleLoad false (utf8Bytes "not json") none).decision_type =
      .DENY :=
  (gate_fail_closed sampleRuntime sampleLoad false (utf8Bytes "not json") none).1
    (by decide)

/-- Witness for C2 at the happy-path scenario: the `ALLOW` decision echoes
the request's tool name and args. -/
theorem gate_approved_call_witness :
    (execute sampleRuntime sampleLoad false (utf8Bytes "x") (some sampleReqObj)).approved_call =
      some ⟨sampleReq.tool.name, sampleReq.tool.args⟩ :=
  (gate_approved_call sampleRuntime sampleLoad false (utf8Bytes "x") (some sampleReqObj)).2
    sampleReqObj sampleReq rfl sampleReq_validates (by decide)

/-- Witness for C10: the parse-error decision carries
`UNKNOWN/UNKNOWN` plus the fallback profile ref hash. -/
theorem gate_early_profile_fields_witness :
    (execute sampleRuntime sampleLoad false (utf8Bytes "not json") none).profile =
      ⟨"UNKNOWN", "UNKNOWN", fallback_profile_ref_hash⟩ :=
  (gate_early_profile_fields sampleRuntime sampleLoad false (utf8Bytes "not json") none).1 rfl

/-- Witness for C4 (amended) on the parse-failure conjunct. -/
theorem gate_request_hash_paths_witness :
    (execute sampleRuntime sampleLoad false (utf8Bytes "not json") none).request_hash =
      sha256_prefixed (utf8Bytes "not json") :=
  (gate_request_hash_paths sampleRuntime sampleLoad (utf8Bytes "not json") none).1 rfl

/-- Counterexample for C4 as stated: on a schema-validation failure the
decision's `request_hash` is *not* the digest of the raw request bytes — it
is the digest of the canonical form of the parsed JSON. -/
theorem schema_invalid_hash_not_raw :
    validateRequest c4obj = none ∧
    (execute sampleRuntime sampleLoad false c4raw (some c4obj)).reason_code =
      .REQUEST_SCHEMA_INVALID ∧
    (execute sampleRuntime sampleLoad false c4raw (some c4obj)).request_hash ≠
      sha256_prefixed c4raw := by
  refine ⟨rfl, rfl, ?_⟩
  decide

/-! ## Key reordering does not change `request_hash` (C8)

`canonical_json_bytes` sorts object keys at every level, so two values that
differ only by the order of object entries (anywhere, recursively) have the
same canonical bytes — and hence the same `hash_json`.  Python dictionaries
never hold duplicate keys, so key lists are assumed `Nodup`. -/

theorem sortKV_perm (l : List (String × String)) : (sortKV l).Perm l :=
  List.perm_insertionSort kvLE l

theorem sortKV_sorted (l : List (String × String)) : (sortKV l).Sorted kvLE :=
  List.sorted_insertionSort kvLE l

theorem pairwise_kvLT_of_sorted_nodup {l : List (String × String)}
    (hs : l.Sorted kvLE) (hnd : (l.map Prod.fst).Nodup) : l.Pairwise kvLT := by
  have hne : l.Pairwise fun a b => a.1 ≠ b.1 := List.pairwise_map.mp hnd
  exact (hs.and hne).imp fun h => lt_of_le_of_ne h.1 fun hd => h.2 (String.ext hd)

/-- Sorting by key is permutation-invariant once keys are distinct. -/
theorem sortKV_eq_of_perm {l₁ l₂ : List (String × String)} (hp : l₁.Perm l₂)
    (hnd : (l₁.map Prod.fst).Nodup) : sortKV l₁ = sortKV l₂ := by
  have hperm : (sortKV l₁).Perm (sortKV l₂) :=
    (sortKV_perm l₁).trans (hp.trans (sortKV_perm l₂).symm)
  have hnd1 : ((sortKV l₁).map Prod.fst).Nodup :=
    ((sortKV_perm l₁).map Prod.fst).nodup_iff.mpr hnd
  have hnd2 : ((sortKV l₂).map Prod.fst).Nodup :=
    ((hperm.map Prod.fst).nodup_iff).mp hnd1
  exact List.eq_of_perm_of_sorted hperm
    (pairwise_kvLT_of_sorted_nodup (sortKV_sorted l₁) hnd1)
    (pairwise_kvLT_of_sorted_nodup (sortKV_sorted l₂) hnd2)

theorem canonicalKVs_eq_map (kvs : List (String × JVal)) :
    canonicalKVs kvs = kvs.map fun kv => (kv.1, canonicalStr kv.2) := by
  induction kvs with
  | nil => rfl
  | cons kv rest ih => rw [canonicalKVs, ih, List.map_cons]

theorem canonicalKVs_keys (kvs : List (String × JVal)) :
    (canonicalKVs kvs).map Prod.fst = kvs.map Prod.fst := by
  rw [canonicalKVs_eq_map, List.map_map]
  rfl

theorem canonicalKVs_perm {kvs kvs' : List (String × JVal)} (h : kvs.Perm kvs') :
    (canonicalKVs kvs).Perm (canonicalKVs kvs') := by
  rw [canonicalKVs_eq_map, canonicalKVs_eq_map]
  exact h.map _

theorem distinctKeys_iff {ks : List String} : distinctKeys ks = true ↔ ks.Nodup := by
  induction ks with
  | nil => simp [distinctKeys]
  | cons k ks ih => simp [distinctKeys, ih, List.nodup_cons]

theorem nodupKeysKVs_iff {kvs : List (String × JVal)} :
    nodupKeysKVs kvs = true ↔ ∀ kv ∈ kvs, nodupKeysJ kv.2 = true := by
  induction kvs with
  | nil => simp [nodupKeysKVs]
  | cons kv rest ih => simp [nodupKeysKVs, ih, Bool.and_eq_true]

/-- The joint congruence: a key reordering leaves the canonical text of the
value, of array elements, and (up to permutation) of serialized object
entries unchanged, provided keys are distinct. -/
theorem keyPerm_canonical {v w : JVal} (h : keyPerm v w) :
    nodupKeysJ v = true →
    canonicalStr v = canonicalStr w ∧
    (∀ xs ys, v = .arr xs → w = .arr ys → canonicalList xs = canonicalList ys) ∧
    (∀ kvs kvs'', v = .obj kvs → w = .obj kvs'' →
      (canonicalKVs kvs).Perm (canonicalKVs kvs'')) := by
  induction h with
  | refl v =>
    intro _
    refine ⟨rfl, ?_, ?_⟩
    · rintro xs ys rfl h2
      cases h2
      rfl
    · rintro kvs kvs'' rfl h2
      cases h2
      exact List.Perm.refl _
  | arrNil =>
    intro _
    refine ⟨rfl, ?_, ?_⟩
    · rintro xs ys h1 h2
      cases h1
      cases h2
      rfl
    · rintro kvs kvs'' h1 h2
      cases h1
  | @arrCons x y xs ys hxy hxs ih1 ih2 =>
    intro hnd
    have hx : nodupKeysJ x = true ∧ nodupKeysArr xs = true := by
      simpa [nodupKeysJ, nodupKeysArr, Bool.and_eq_true] using hnd
    have e1 : canonicalStr x = canonicalStr y := (ih1 hx.1).1
    have e2 : canonicalList xs = canonicalList ys := (ih2 hx.2).2.1 xs ys rfl rfl
    refine ⟨?_, ?_, ?_⟩
    · show canonicalStr (.arr (x :: xs)) = canonicalStr (.arr (y :: ys))
      rw [canonicalStr, canonicalStr, canonicalList, canonicalList, e1, e2]
    · rintro xs' ys' h1 h2
      cases h1
      cases h2
      rw [canonicalList, canonicalList, e1, e2]
    · rintro kvs kvs'' h1 h2
      cases h1
  | objNil =>
    intro _
    refine ⟨rfl, ?_, ?_⟩
    · rintro xs ys h1 h2
      cases h1
    · rintro kvs kvs'' h1 h2
      cases h1
      cases h2
      exact List.Perm.refl _
  | @objCons k v w kvs kvs' hvw hobj ih1 ih2 =>
    intro hnd
    have hparts : (k ∉ kvs.map Prod.fst ∧ distinctKeys (kvs.map Prod.fst) = true) ∧
        nodupKeysJ v = true ∧ nodupKeysKVs kvs = true := by
      simpa [nodupKeysJ, nodupKeysKVs, distinctKeys, Bool.and_eq_true] using hnd
    obtain ⟨⟨hk, hdk⟩, hv, hkvs⟩ := hparts
    have hobjnd : nodupKeysJ (.obj kvs) = true := by
      simp [nodupKeysJ, Bool.and_eq_true, hdk, hkvs]
    have ev : canonicalStr v = canonicalStr w := (ih1 hv).1
    have eperm : (canonicalKVs kvs).Perm (canonicalKVs kvs') :=
      (ih2 hobjnd).2.2 kvs kvs' rfl rfl
    have two : (canonicalKVs ((k, v) :: kvs)).Perm (canonicalKVs ((k, w) :: kvs')) := by
      rw [canonicalKVs, canonicalKVs]
      dsimp only
      rw [ev]
      exact eperm.cons _
    refine ⟨?_, ?_, ?_⟩
    · show canonicalStr (.obj ((k, v) :: kvs)) = canonicalStr (.obj ((k, w) :: kvs'))
      have hndkeys : ((canonicalKVs ((k, v) :: kvs)).map Prod.fst).Nodup := by
        rw [canonicalKVs_keys]
        simp [List.nodup_cons, hk, distinctKeys_iff.mp hdk]
      rw [canonicalStr, canonicalStr, sortKV_eq_of_perm two hndkeys]
    · rintro xs ys h1 h2
      cases h1
    · rintro kvs0 kvs1 h1 h2
      cases h1
      cases h2
      exact two
  | @objPerm kvs kvs' kvs'' hperm hrest ih =>
    intro hnd
    have hparts : distinctKeys (kvs.map Prod.fst) = true ∧ nodupKeysKVs kvs = true := by
      simpa [nodupKeysJ, Bool.and_eq_true] using hnd
    obtain ⟨hdk, hkv⟩ := hparts
    have hnd' : nodupKeysJ (.obj kvs') = true := by
      have h1 : (kvs'.map Prod.fst).Nodup :=
        ((hperm.map Prod.fst).nodup_iff).mp (distinctKeys_iff.mp hdk)
      have h2 : nodupKeysKVs kvs' = true :=
        nodupKeysKVs_iff.mpr fun kv hm =>
          nodupKeysKVs_iff.mp hkv kv (hperm.mem_iff.mpr hm)
      simp [nodupKeysJ, Bool.and_eq_true, distinctKeys_iff.mpr h1, h2]
    have p1 : (canonicalKVs kvs).Perm (canonicalKVs kvs') := canonicalKVs_perm hperm
    have p2 : (canonicalKVs kvs').Perm (canonicalKVs kvs'') :=
      (ih hnd').2.2 kvs' kvs'' rfl rfl
    have hndkeys : ((canonicalKVs kvs).map Prod.fst).Nodup := by
      rw [canonicalKVs_keys]
      exact distinctKeys_iff.mp hdk
    have e0 : canonicalStr (.obj kvs) = canonicalStr (.obj kvs') := by
      rw [canonicalStr, canonicalStr, sortKV_eq_of_perm p1 hndkeys]
    refine ⟨e0.trans (ih hnd').1, ?_, ?_⟩
    · rintro xs ys h1 h2
      cases h1
    · rintro a b h1 h2
      cases h1
      cases h2
      exact p1.trans p2

/-- C8: reordering the entries of any object nested anywhere inside a
JSON-serializable value does not change its canonical bytes, hence not its
`hash_json` digest (`request_hash`). -/
theorem hash_json_key_reorder {v w : JVal} (h : keyPerm v w)
    (hnd : nodupKeysJ v = true) : hash_json v = hash_json w := by
  unfold hash_json canonical_json_bytes
  rw [(keyPerm_canonical h hnd).1]

theorem reordered_keyPerm : keyPerm reorderedV reorderedW :=
  .objPerm
    (List.Perm.swap ("a", JVal.obj [("y", JVal.int 2), ("x", JVal.int 3)]) ("b", JVal.int 1) [])
    (.objCons (.objPerm (List.Perm.swap ("x", JVal.int 3) ("y", JVal.int 2) []) (.refl _))
      (.objCons (.refl _) .objNil))

/-- Witness for C8 at a concrete two-level reordering. -/
theorem hash_json_key_reorder_witness : hash_json reorderedV = hash_json reorderedW :=
  hash_json_key_reorder reordered_keyPerm (by decide)

end ECL
